import Mathlib

/-
Verification development for the code-to-flowchart visualizer (src/app.py).

The app's reproducible core is modelled as pure Lean functions over
`List Char` (Python `str`) and a `JValue` type (the values produced by
Python's `json.loads`):

  * `sliceCandidate`   — the first-`{` / last-`}` slicing (app.py lines 207-214)
  * `jsonParse`        — strict JSON parsing à la `json.loads` (line 218)
  * `extractGraph`     — slicing + parsing + nodes/edges key validation
                         (lines 207-228), with the Python membership
                         semantics of `"nodes" in graph_data`
  * `node_style` / `edge_color` — the label-keyword styling chains
                         (lines 240-263 and 279-289)
  * `renderGraph`      — the node/edge rendering loops (lines 236-297),
                         where `none` models a raised Python exception
                         that the generic handler (lines 315-316) catches
  * `runGenerate`      — the Generate-button pipeline (lines 95-316) with
                         the completion responses supplied as inputs

Python exceptions (KeyError, TypeError, AttributeError) are modelled
uniformly as `none` / `.pyError`: they are all caught by the same generic
`except Exception` handler, so their distinction is not observable.
-/

/-- Convert a Lean string literal to the `List Char` representation used
throughout this development. -/
def cs (s : String) : List Char := s.data

/-- The characters Python's `str.strip()` removes (Unicode whitespace as
recognised by `str.isspace`). -/
def pyIsSpace (c : Char) : Bool :=
  c.toNat ∈ [0x09, 0x0a, 0x0b, 0x0c, 0x0d, 0x1c, 0x1d, 0x1e, 0x1f, 0x20,
    0x85, 0xa0, 0x1680, 0x2000, 0x2001, 0x2002, 0x2003, 0x2004, 0x2005,
    0x2006, 0x2007, 0x2008, 0x2009, 0x200a, 0x2028, 0x2029, 0x202f,
    0x205f, 0x3000]

/-- Python `str.strip()`: drop leading and trailing whitespace. -/
def pyStrip (s : List Char) : List Char :=
  ((s.dropWhile pyIsSpace).reverse.dropWhile pyIsSpace).reverse

/-- Python `str.lower()` (ASCII case folding; the styling keywords are all
ASCII, so the Unicode-only differences of Python's full case folding are
not observable by any property proved here). -/
def pyLowerStr (s : List Char) : List Char := s.map Char.toLower

/-- Python `pat in s` for strings: contiguous-substring test. -/
def strContains (s pat : List Char) : Bool :=
  s.tails.any (fun t => pat.isPrefixOf t)

/-- Python `str.find(c)`: index of the first occurrence, `none` for -1. -/
def pyFind (c : Char) (s : List Char) : Option Nat :=
  s.findIdx? (fun x => x == c)

/-- Python `str.rfind(c)`: index of the last occurrence, `none` for -1. -/
def pyRfind (c : Char) (s : List Char) : Option Nat :=
  (s.reverse.findIdx? (fun x => x == c)).map (fun i => s.length - 1 - i)

/-- app.py lines 207-214: `json_start = find('\x7b')`, `json_end =
rfind('\x7d')`; the slice `raw[json_start : json_end + 1]` is used only
when both exist and `json_end > json_start`, otherwise the whole text. -/
def sliceCandidate (raw : List Char) : List Char :=
  match pyFind '{' raw, pyRfind '}' raw with
  | some a, some b => if a < b then (raw.drop a).take (b + 1 - a) else raw
  | _, _ => raw

/-- Values produced by Python's `json.loads`: `None`, `bool`, `int`,
`float` (kept as its literal text — no property here inspects float
values), `str`, `list`, `dict` (insertion-ordered association list). -/
inductive JValue where
  | jnull : JValue
  | jbool : Bool → JValue
  | jint : Int → JValue
  | jfloat : List Char → JValue
  | jstr : List Char → JValue
  | jarr : List JValue → JValue
  | jobj : List (List Char × JValue) → JValue
deriving Repr

/-- Python dict insertion: an existing key keeps its position and gets the
new value, a new key is appended. -/
def pyDictInsert (kvs : List (List Char × JValue)) (k : List Char)
    (v : JValue) : List (List Char × JValue) :=
  match kvs with
  | [] => [(k, v)]
  | (k0, v0) :: t =>
    if k0 = k then (k0, v) :: t else (k0, v0) :: pyDictInsert t k v

/-- Build the dict for a parsed JSON object from its key/value pairs in
source order (duplicate keys: last value wins, first position kept). -/
def mkObj (ps : List (List Char × JValue)) : JValue :=
  JValue.jobj (ps.foldl (fun acc p => pyDictInsert acc p.1 p.2) [])

/-- Dict lookup (`d[k]` on a dict): `none` models a KeyError. -/
def lookupKey (kvs : List (List Char × JValue)) (k : List Char) :
    Option JValue :=
  (kvs.find? (fun p => p.1 == k)).map (fun p => p.2)

/-- Python `v[k]` with a string key: works only on dicts; a string key on
a list/str raises TypeError and other values are not subscriptable, all
modelled as `none`. -/
def pySubscript (v : JValue) (k : List Char) : Option JValue :=
  match v with
  | .jobj kvs => lookupKey kvs k
  | _ => none

/-- Python `==` between a str and an arbitrary JSON-derived value (used by
list membership): only an equal str compares equal. -/
def isStrEq (key : List Char) (v : JValue) : Bool :=
  match v with
  | .jstr s => s == key
  | _ => false

/-- Python `key in v` for a str key: dict → key test, list → element
equality test, str → substring test; `in` on None/bool/int/float raises
TypeError, modelled as `none`. -/
def pyIn (key : List Char) (v : JValue) : Option Bool :=
  match v with
  | .jobj kvs => some (kvs.any (fun p => p.1 == key))
  | .jarr xs => some (xs.any (fun x => isStrEq key x))
  | .jstr s => some (strContains s key)
  | _ => none

/-- Python `for x in v`: list → elements, str → its characters as
one-character strings, dict → its keys; iterating None/bool/int/float
raises TypeError, modelled as `none`. -/
def pyIterate (v : JValue) : Option (List JValue) :=
  match v with
  | .jarr xs => some xs
  | .jstr s => some (s.map (fun c => JValue.jstr [c]))
  | .jobj kvs => some (kvs.map (fun p => JValue.jstr p.1))
  | _ => none

/-- Decimal text of an integer, via Lean's `toString`. -/
def intChars (n : Int) : List Char := (toString n).data

def joinCommaSep (xs : List (List Char)) : List Char :=
  match xs with
  | [] => []
  | [x] => x
  | x :: t => x ++ cs ", " ++ joinCommaSep t

mutual
/-- Python `str(v)` (for `asRepr = false`) and `repr(v)` (for
`asRepr = true`) of a JSON-derived value; the two differ only on
strings (`repr` quotes them). Used by the f-strings `f"N_..."` in
app.py lines 237/277-278, which apply `str`. Scalars follow Python
exactly; containers use Python's bracketing and comma conventions
(string quoting inside containers is simplified to always-single-quote —
no property observes it). `str` never raises, which is the only fact
the properties rely on. -/
def pyStrAux (asRepr : Bool) (v : JValue) : List Char :=
  match v with
  | .jnull => cs "None"
  | .jbool true => cs "True"
  | .jbool false => cs "False"
  | .jint n => intChars n
  | .jfloat lit => lit
  | .jstr s => if asRepr then Char.ofNat 39 :: s ++ [Char.ofNat 39] else s
  | .jarr xs => '[' :: joinCommaSep (pyReprList xs) ++ [']']
  | .jobj kvs =>
    Char.ofNat 0x7b :: joinCommaSep (pyReprPairs kvs) ++ [Char.ofNat 0x7d]

def pyReprList (xs : List JValue) : List (List Char) :=
  match xs with
  | [] => []
  | x :: t => pyStrAux true x :: pyReprList t

def pyReprPairs (kvs : List (List Char × JValue)) : List (List Char) :=
  match kvs with
  | [] => []
  | (k, v) :: t =>
    (Char.ofNat 39 :: k ++ [Char.ofNat 39] ++ cs ": " ++ pyStrAux true v) ::
      pyReprPairs t
end

/-- Python `str(v)`. -/
def pyToStr (v : JValue) : List Char := pyStrAux false v

/-- JSON whitespace skipped by `json.loads` between tokens
(space, tab, newline, carriage return). -/
def isJsonWs (c : Char) : Bool :=
  c = ' ' || c = '\t' || c = '\n' || c = '\r'

def skipWs (s : List Char) : List Char := s.dropWhile isJsonWs

/-- Value of a hexadecimal digit. -/
def hexVal (c : Char) : Option Nat :=
  if '0' ≤ c ∧ c ≤ '9' then some (c.toNat - 48)
  else if 'a' ≤ c ∧ c ≤ 'f' then some (c.toNat - 87)
  else if 'A' ≤ c ∧ c ≤ 'F' then some (c.toNat - 55)
  else none

/-- The single-character JSON string escapes. -/
def escMap (c : Char) : Option Char :=
  if c = '"' then some '"'
  else if c = '\\' then some '\\'
  else if c = '/' then some '/'
  else if c = 'b' then some (Char.ofNat 8)
  else if c = 'f' then some (Char.ofNat 12)
  else if c = 'n' then some '\n'
  else if c = 'r' then some '\r'
  else if c = 't' then some '\t'
  else none

/-- Strict JSON string-body parser (the part after the opening quote), as
in `json.loads` with `strict=True`: raw control characters below 0x20 are
rejected, escapes are the eight named ones plus `\uXXXX`. (Lean's `Char`
cannot hold lone surrogates, so `\uXXXX` for surrogate halves maps
through `Char.ofNat`'s fallback — no property here exercises
surrogates.) Returns the decoded string and the rest after the closing
quote. -/
def parseStringBody : List Char → Option (List Char × List Char)
  | [] => none
  | c :: rest =>
    if c = '"' then some ([], rest)
    else if c = '\\' then
      match rest with
      | [] => none
      | 'u' :: h1 :: h2 :: h3 :: h4 :: rest3 =>
        match hexVal h1, hexVal h2, hexVal h3, hexVal h4 with
        | some a, some b, some c2, some d =>
          match parseStringBody rest3 with
          | some (s, r) =>
            some (Char.ofNat (4096 * a + 256 * b + 16 * c2 + d) :: s, r)
          | none => none
        | _, _, _, _ => none
      | e :: rest2 =>
        match escMap e with
        | some ec =>
          match parseStringBody rest2 with
          | some (s, r) => some (ec :: s, r)
          | none => none
        | none => none
    else if c.toNat < 0x20 then none
    else
      match parseStringBody rest with
      | some (s, r) => some (c :: s, r)
      | none => none

def isDigit (c : Char) : Bool := '0' ≤ c && c ≤ '9'

/-- Split off a leading run of decimal digits. -/
def spanDigits : List Char → (List Char × List Char)
  | [] => ([], [])
  | c :: rest =>
    if isDigit c then
      let (d, r) := spanDigits rest
      (c :: d, r)
    else ([], c :: rest)

def digitsToNat (ds : List Char) : Nat :=
  ds.foldl (fun acc c => 10 * acc + (c.toNat - 48)) 0

/-- Greedy match of JSON's number regex
`(-?(0|[1-9]\d*))(\.\d+)?([eE][+-]?\d+)?` starting at the head of the
input, exactly as `json.loads`'s scanner does: the fraction/exponent are
taken only when complete (a dot or `e` not followed by digits is left in
the rest). Returns a Python int for a bare integer literal, and a float
(kept as its matched literal) otherwise. -/
def parseNumber (s : List Char) : Option (JValue × List Char) :=
  let (negLit, s1) :=
    match s with
    | '-' :: r => (['-'], r)
    | _ => (([] : List Char), s)
  match s1 with
  | [] => none
  | c :: r0 =>
    if ¬ isDigit c then none
    else
      let (intDs, r1) :=
        if c = '0' then ([c], r0)
        else
          let (d, r) := spanDigits r0
          (c :: d, r)
      let (fracDs, r2) :=
        match r1 with
        | '.' :: rf =>
          let (d, r) := spanDigits rf
          if d = [] then (([] : List Char), r1) else ('.' :: d, r)
        | _ => (([] : List Char), r1)
      let (expDs, r3) :=
        match r2 with
        | e :: rexp =>
          if e = 'e' ∨ e = 'E' then
            match rexp with
            | sgn :: rexp2 =>
              if sgn = '+' ∨ sgn = '-' then
                let (d, r) := spanDigits rexp2
                if d = [] then (([] : List Char), r2) else (e :: sgn :: d, r)
              else
                let (d, r) := spanDigits rexp
                if d = [] then (([] : List Char), r2) else (e :: d, r)
            | [] => (([] : List Char), r2)
          else (([] : List Char), r2)
        | [] => (([] : List Char), r2)
      if fracDs = [] ∧ expDs = [] then
        let n : Int := Int.ofNat (digitsToNat intDs)
        some (JValue.jint (if negLit = [] then n else -n), r1)
      else
        some (JValue.jfloat (negLit ++ intDs ++ fracDs ++ expDs), r3)

mutual
/-- Strict JSON value parser modelling `json.loads`'s scanner: parses one
JSON value at the head of the input (leading whitespace already
consumed) and returns it with the unconsumed rest. `fuel` only bounds
the recursion; `jsonParse` supplies enough for any input it is given.
The literals `NaN`, `Infinity`, `-Infinity` are accepted as floats, as
`json.loads` does by default. -/
def parseValue : Nat → List Char → Option (JValue × List Char)
  | 0, _ => none
  | fuel + 1, s =>
    match s with
    | '{' :: r =>
      match parseObjBody fuel (skipWs r) with
      | some (ps, r1) => some (mkObj ps, r1)
      | none => none
    | '[' :: r =>
      match parseArrBody fuel (skipWs r) with
      | some (vs, r1) => some (JValue.jarr vs, r1)
      | none => none
    | '"' :: r =>
      match parseStringBody r with
      | some (str, r1) => some (JValue.jstr str, r1)
      | none => none
    | 't' :: 'r' :: 'u' :: 'e' :: r => some (JValue.jbool true, r)
    | 'f' :: 'a' :: 'l' :: 's' :: 'e' :: r => some (JValue.jbool false, r)
    | 'n' :: 'u' :: 'l' :: 'l' :: r => some (JValue.jnull, r)
    | 'N' :: 'a' :: 'N' :: r => some (JValue.jfloat (cs "NaN"), r)
    | 'I' :: 'n' :: 'f' :: 'i' :: 'n' :: 'i' :: 't' :: 'y' :: r =>
      some (JValue.jfloat (cs "Infinity"), r)
    | '-' :: 'I' :: 'n' :: 'f' :: 'i' :: 'n' :: 'i' :: 't' :: 'y' :: r =>
      some (JValue.jfloat (cs "-Infinity"), r)
    | _ => parseNumber s

/-- Object body after the opening brace (whitespace skipped): either an
immediate closing brace or a first `"key": value` pair. -/
def parseObjBody : Nat → List Char →
    Option (List (List Char × JValue) × List Char)
  | 0, _ => none
  | fuel + 1, s =>
    match s with
    | '}' :: r => some ([], r)
    | '"' :: r =>
      match parseStringBody r with
      | some (k, r1) =>
        match skipWs r1 with
        | ':' :: r2 =>
          match parseValue fuel (skipWs r2) with
          | some (v, r3) =>
            match parseObjTail fuel (skipWs r3) with
            | some (ps, r4) => some ((k, v) :: ps, r4)
            | none => none
          | none => none
        | _ => none
      | none => none
    | _ => none

/-- Object tail after a parsed pair (whitespace skipped): a closing brace
or a comma followed by the next pair. -/
def parseObjTail : Nat → List Char →
    Option (List (List Char × JValue) × List Char)
  | 0, _ => none
  | fuel + 1, s =>
    match s with
    | '}' :: r => some ([], r)
    | ',' :: r =>
      match skipWs r with
      | '"' :: r1 =>
        match parseStringBody r1 with
        | some (k, r2) =>
          match skipWs r2 with
          | ':' :: r3 =>
            match parseValue fuel (skipWs r3) with
            | some (v, r4) =>
              match parseObjTail fuel (skipWs r4) with
              | some (ps, r5) => some ((k, v) :: ps, r5)
              | none => none
            | none => none
          | _ => none
        | none => none
      | _ => none
    | _ => none

/-- Array body after the opening bracket (whitespace skipped). -/
def parseArrBody : Nat → List Char → Option (List JValue × List Char)
  | 0, _ => none
  | fuel + 1, s =>
    match s with
    | ']' :: r => some ([], r)
    | _ =>
      match parseValue fuel s with
      | some (v, r1) =>
        match parseArrTail fuel (skipWs r1) with
        | some (vs, r2) => some (v :: vs, r2)
        | none => none
      | none => none

/-- Array tail after a parsed element (whitespace skipped). -/
def parseArrTail : Nat → List Char → Option (List JValue × List Char)
  | 0, _ => none
  | fuel + 1, s =>
    match s with
    | ']' :: r => some ([], r)
    | ',' :: r =>
      match parseValue fuel (skipWs r) with
      | some (v, r1) =>
        match parseArrTail fuel (skipWs r1) with
        | some (vs, r2) => some (v :: vs, r2)
        | none => none
      | none => none
    | _ => none
end

/-- `json.loads`: skip leading whitespace, parse one value, and require
only whitespace after it; `none` models `json.JSONDecodeError`. The fuel
`10 * length + 10` is ample for any input (each unit of nesting or list
continuation consumes at least one character). -/
def jsonParse (s : List Char) : Option JValue :=
  match parseValue (10 * s.length + 10) (skipWs s) with
  | some (v, rest) => if skipWs rest = [] then some v else none
  | none => none

/-- Outcome of the extraction stage, app.py lines 207-228.
`malformed` is the `json.JSONDecodeError` branch (line 220, MalformedOutput),
`missingField` the key-validation branch (line 226, MissingField); both
carry the text shown verbatim via `st.code`. `pyError` models a Python
exception escaping to the generic handler (lines 315-316). -/
inductive ExtractResult where
  | ok : JValue → ExtractResult
  | malformed : List Char → ExtractResult
  | missingField : List Char → ExtractResult
  | pyError : ExtractResult
deriving Repr

/-- app.py lines 207-228: brace-slice the candidate, `json.loads` it, then
check `not ("nodes" in graph_data and "edges" in graph_data)` with
Python's short-circuit evaluation and membership semantics. -/
def extractGraph (raw : List Char) : ExtractResult :=
  match jsonParse (sliceCandidate raw) with
  | none => ExtractResult.malformed raw
  | some v =>
    match pyIn (cs "nodes") v with
    | none => ExtractResult.pyError
    | some false => ExtractResult.missingField raw
    | some true =>
      match pyIn (cs "edges") v with
      | none => ExtractResult.pyError
      | some false => ExtractResult.missingField raw
      | some true => ExtractResult.ok v

/-- A node's visual attributes: shape, fill color, font color. -/
structure NodeStyle where
  shape : List Char
  fillcolor : List Char
  fontcolor : List Char
deriving Repr, DecidableEq

/-- app.py lines 240-263: the node-styling if/elif chain over the
lowercased label. Defaults box / #1E90FF (blue) / white; the `start`
branch leaves the font white, the `return`/`end` and `call`/`function`
branches leave it white, the condition and initialization branches set
it black. -/
def node_style (label : List Char) : NodeStyle :=
  let l := pyLowerStr label
  if strContains l (cs "start") then
    { shape := cs "oval", fillcolor := cs "#32CD32", fontcolor := cs "white" }
  else if strContains l (cs "check") || strContains l (cs "if") ||
      strContains l (cs "loop") || strContains l (cs "condition") then
    { shape := cs "diamond", fillcolor := cs "#FFD700", fontcolor := cs "black" }
  else if strContains l (cs "return") || strContains l (cs "end") then
    { shape := cs "oval", fillcolor := cs "#8A2BE2", fontcolor := cs "white" }
  else if strContains l (cs "call") || strContains l (cs "function") then
    { shape := cs "box", fillcolor := cs "#FF6347", fontcolor := cs "white" }
  else if strContains l (cs "initialize") || strContains l (cs "variable") ||
      strContains l (cs "assign") then
    { shape := cs "box", fillcolor := cs "#ADD8E6", fontcolor := cs "black" }
  else
    { shape := cs "box", fillcolor := cs "#1E90FF", fontcolor := cs "white" }

/-- app.py lines 279-289: the edge-color if/elif chain over the edge
label: exactly "yes" or containing "true" → green #32CD32; else exactly
"no" or containing "false" → red #FF6347; else containing "iteration" or
"loop" → blue #0000FF; else gray #666666. -/
def edge_color (label : List Char) : List Char :=
  let l := pyLowerStr label
  if l == cs "yes" || strContains l (cs "true") then cs "#32CD32"
  else if l == cs "no" || strContains l (cs "false") then cs "#FF6347"
  else if strContains l (cs "iteration") || strContains l (cs "loop") then
    cs "#0000FF"
  else cs "#666666"

/-- One `dot.node(...)` call, app.py lines 265-273. -/
structure NodeRender where
  name : List Char
  label : List Char
  shape : List Char
  fillcolor : List Char
  fontcolor : List Char
  style : List Char
  tooltip : List Char
deriving Repr

/-- One `dot.edge(...)` call, app.py lines 291-297. -/
structure EdgeRender where
  efrom : List Char
  eto : List Char
  label : List Char
  color : List Char
  penwidth : List Char
deriving Repr

/-- The Digraph handed to `st.graphviz_chart`, app.py lines 233-302. -/
structure Drawing where
  rankdir : List Char
  splines : List Char
  nodes : List NodeRender
  edges : List EdgeRender
deriving Repr

/-- One iteration of the node loop, app.py lines 236-273: `node['id']`
(KeyError/TypeError when absent or the node is not a dict), `node_id`
via the total f-string, `node["label"]` (KeyError when absent), then the
styling chain, whose `.lower()` raises AttributeError on a non-string
label. `none` models any of these exceptions. -/
def renderNode (node : JValue) : Option NodeRender :=
  match pySubscript node (cs "id") with
  | none => none
  | some idv =>
    match pySubscript node (cs "label") with
    | none => none
    | some (.jstr lbl) =>
      let st := node_style lbl
      some { name := cs "N_" ++ pyToStr idv, label := lbl,
             shape := st.shape, fillcolor := st.fillcolor,
             fontcolor := st.fontcolor, style := cs "filled",
             tooltip := lbl }
    | some _ => none

/-- One iteration of the edge loop, app.py lines 276-297: `edge['from']`
and `edge['to']` (KeyError/TypeError), `edge.get("label", "")` (list
values have no `.get`, but a non-dict already failed the subscripts),
then the color chain, whose `.lower()` raises AttributeError when the
present label value is not a string. -/
def renderEdge (edge : JValue) : Option EdgeRender :=
  match edge with
  | .jobj kvs =>
    match lookupKey kvs (cs "from") with
    | none => none
    | some fv =>
      match lookupKey kvs (cs "to") with
      | none => none
      | some tv =>
        match (lookupKey kvs (cs "label")).getD (JValue.jstr []) with
        | .jstr lbl =>
          some { efrom := cs "N_" ++ pyToStr fv, eto := cs "N_" ++ pyToStr tv,
                 label := lbl, color := edge_color lbl, penwidth := cs "2.0" }
        | _ => none
  | _ => none

/-- Run a per-element renderer down a list, aborting on the first
exception, as the Python `for` loops do. -/
def renderList (f : JValue → Option α) : List JValue → Option (List α)
  | [] => some []
  | x :: xs =>
    match f x with
    | none => none
    | some y =>
      match renderList f xs with
      | none => none
      | some ys => some (y :: ys)

/-- app.py lines 230-302: build the Digraph. `graph_data["nodes"]` is
subscripted and iterated, every node rendered, then the same for
`graph_data["edges"]`. Note no step consults whether an edge's
endpoints name declared nodes — graphviz auto-creates endpoints — so
dangling references cannot fail here. `none` models an exception
reaching the generic handler. -/
def renderGraph (v : JValue) : Option Drawing :=
  match pySubscript v (cs "nodes") with
  | none => none
  | some nv =>
    match pyIterate nv with
    | none => none
    | some nitems =>
      match renderList renderNode nitems with
      | none => none
      | some rnodes =>
        match pySubscript v (cs "edges") with
        | none => none
        | some ev =>
          match pyIterate ev with
          | none => none
          | some eitems =>
            match renderList renderEdge eitems with
            | none => none
            | some redges =>
              some { rankdir := cs "TB", splines := cs "ortho",
                     nodes := rnodes, edges := redges }

/-- Observable outcome of one press of the Generate button. -/
inductive GenOutcome where
  | warnedEmpty : GenOutcome
  | errorMalformed : List Char → GenOutcome
  | errorMissing : List Char → GenOutcome
  | genericError : GenOutcome
  | rendered : Drawing → List Char → JValue → GenOutcome
deriving Repr

/-- app.py lines 95-316: the Generate pipeline, with the two completion
responses supplied as inputs (the completion service is an external
collaborator). An empty-after-strip code input only warns (lines 96-97);
otherwise both responses are stripped (lines 193/204), the flowchart
text goes through extraction, errors stop the attempt (`st.stop`), a
rendering exception hits the generic handler, and success shows the
diagram, the explanation, and the parsed JSON. -/
def runGenerate (codeInput flowResp explResp : List Char) : GenOutcome :=
  if pyStrip codeInput = [] then GenOutcome.warnedEmpty
  else
    match extractGraph (pyStrip flowResp) with
    | .malformed raw => GenOutcome.errorMalformed raw
    | .missingField raw => GenOutcome.errorMissing raw
    | .pyError => GenOutcome.genericError
    | .ok v =>
      match renderGraph v with
      | none => GenOutcome.genericError
      | some d => GenOutcome.rendered d (pyStrip explResp) v

/-- spec.md §3: a flowchart node — id and label strings. -/
structure FlowNode where
  id : List Char
  label : List Char
deriving Repr, DecidableEq

/-- spec.md §3: a flowchart edge — from/to ids and an optional label
(`from` is a Lean keyword, hence `efrom`/`eto`). -/
structure FlowEdge where
  efrom : List Char
  eto : List Char
  label : Option (List Char)
deriving Repr, DecidableEq

/-- spec.md §3: a flowchart graph. -/
structure FlowGraph where
  nodes : List FlowNode
  edges : List FlowEdge
deriving Repr, DecidableEq

/-- Lowercase hex digit for `n < 16`. -/
def hexDigitChar (n : Nat) : Char :=
  if n < 10 then Char.ofNat (48 + n) else Char.ofNat (87 + n)

/-- Strict JSON escaping of one string character: quote and backslash get
a backslash escape, control characters become `\u00XX`, everything else
is literal. -/
def jsonEscChar (c : Char) : List Char :=
  if c = '"' then ['\\', '"']
  else if c = '\\' then ['\\', '\\']
  else if c.toNat < 0x20 then
    ['\\', 'u', '0', '0', hexDigitChar (c.toNat / 16), hexDigitChar (c.toNat % 16)]
  else [c]

def jsonEscStr (s : List Char) : List Char := (s.map jsonEscChar).flatten

/-- A JSON string literal. -/
def strLit (s : List Char) : List Char := '"' :: jsonEscStr s ++ ['"']

/-- Serialize array elements after the first: `,x,y]` (compact form). -/
def serItemsTail : List (List Char) → List Char
  | [] => [']']
  | x :: t => ',' :: (x ++ serItemsTail t)

/-- Serialize a JSON array of pre-serialized items (compact form). -/
def serArr : List (List Char) → List Char
  | [] => ['[', ']']
  | x :: t => '[' :: (x ++ serItemsTail t)

/-- Strict JSON serialization of a node object. -/
def nodeToJson (n : FlowNode) : List Char :=
  '{' :: (strLit (cs "id") ++ ':' :: (strLit n.id ++ ',' ::
    (strLit (cs "label") ++ ':' :: (strLit n.label ++ ['}']))))

/-- Strict JSON serialization of an edge object (label omitted when
unset). -/
def edgeToJson (e : FlowEdge) : List Char :=
  '{' :: (strLit (cs "from") ++ ':' :: (strLit e.efrom ++ ',' ::
    (strLit (cs "to") ++ ':' :: (strLit e.eto ++
      (match e.label with
       | none => []
       | some l => ',' :: (strLit (cs "label") ++ ':' :: strLit l)) ++ ['}']))))

/-- Strict JSON serialization of a whole graph (the `json.stringify(graph)`
of spec.md §8.2, in compact form). -/
def stringifyGraph (g : FlowGraph) : List Char :=
  '{' :: (strLit (cs "nodes") ++ ':' :: (serArr (g.nodes.map nodeToJson) ++
    ',' :: (strLit (cs "edges") ++ ':' ::
      (serArr (g.edges.map edgeToJson) ++ [Char.ofNat 0x7d]))))

/-- The `JValue` a clean parse of a node object yields. -/
def nodeJ (n : FlowNode) : JValue :=
  JValue.jobj [(cs "id", JValue.jstr n.id), (cs "label", JValue.jstr n.label)]

/-- The `JValue` a clean parse of an edge object yields. -/
def edgeJ (e : FlowEdge) : JValue :=
  JValue.jobj ([(cs "from", JValue.jstr e.efrom), (cs "to", JValue.jstr e.eto)] ++
    (match e.label with
     | none => []
     | some l => [(cs "label", JValue.jstr l)]))

/-- The `JValue` a clean parse of a serialized graph yields. -/
def graphToJValue (g : FlowGraph) : JValue :=
  JValue.jobj [(cs "nodes", JValue.jarr (g.nodes.map nodeJ)),
               (cs "edges", JValue.jarr (g.edges.map edgeJ))]

/-- The node-styling keyword table of spec.md §4.3, as an ordered
rule list: keyword groups with their style, first match wins. -/
def nodeRules : List (List (List Char) × NodeStyle) :=
  [ ([cs "start"],
     { shape := cs "oval", fillcolor := cs "#32CD32", fontcolor := cs "white" }),
    ([cs "check", cs "if", cs "loop", cs "condition"],
     { shape := cs "diamond", fillcolor := cs "#FFD700", fontcolor := cs "black" }),
    ([cs "return", cs "end"],
     { shape := cs "oval", fillcolor := cs "#8A2BE2", fontcolor := cs "white" }),
    ([cs "call", cs "function"],
     { shape := cs "box", fillcolor := cs "#FF6347", fontcolor := cs "white" }),
    ([cs "initialize", cs "variable", cs "assign"],
     { shape := cs "box", fillcolor := cs "#ADD8E6", fontcolor := cs "black" }) ]

/-- Spec-side node styling: the first rule of `nodeRules` one of whose
keywords occurs (case-insensitively) in the label, defaulting to
box / blue / white. -/
def nodeStyleSpec (label : List Char) : NodeStyle :=
  match nodeRules.find?
      (fun r => r.1.any (fun k => strContains (pyLowerStr label) k)) with
  | some r => r.2
  | none =>
    { shape := cs "box", fillcolor := cs "#1E90FF", fontcolor := cs "white" }

/-- The edge-color table of spec.md §4.3, as an ordered rule list of
predicate/color pairs over the lowercased label. -/
def edgeRules : List ((List Char → Bool) × List Char) :=
  [ (fun l => l == cs "yes" || strContains l (cs "true"), cs "#32CD32"),
    (fun l => l == cs "no" || strContains l (cs "false"), cs "#FF6347"),
    (fun l => strContains l (cs "iteration") || strContains l (cs "loop"),
     cs "#0000FF") ]

/-- Spec-side edge color: first matching rule of `edgeRules`, defaulting
to gray. -/
def edgeColorSpec (label : List Char) : List Char :=
  match edgeRules.find? (fun r => r.1 (pyLowerStr label)) with
  | some r => r.2
  | none => cs "#666666"

/-- The candidate C2 claims is handed to the parser: whenever both braces
occur, the substring from the first `\x7b` to the last `\x7d` inclusive;
the whole text when either is absent. -/
def claimedCandidate (raw : List Char) : List Char :=
  match pyFind '{' raw, pyRfind '}' raw with
  | some a, some b => (raw.drop a).take (b + 1 - a)
  | _, _ => raw

/-- Index of the first `\x7b`, by direct recursion (spec-side). -/
def firstBraceIdx : List Char → Option Nat
  | [] => none
  | c :: t =>
    if c = '{' then some 0 else (firstBraceIdx t).map (fun i => i + 1)

/-- Index of the last `\x7d`, by direct recursion (spec-side). -/
def lastBraceIdx : List Char → Option Nat
  | [] => none
  | c :: t =>
    match lastBraceIdx t with
    | some i => some (i + 1)
    | none => if c = '}' then some 0 else none

/-- The amended C2 candidate: the inclusive first-`\x7b`-to-last-`\x7d`
substring when both occur and the last `\x7d` lies strictly after the
first `\x7b`; the entire raw text otherwise (either brace absent, or all
closing braces precede the first opening one). -/
def amendedCandidate (raw : List Char) : List Char :=
  match firstBraceIdx raw, lastBraceIdx raw with
  | some a, some b => if a < b then (raw.drop a).take (b + 1 - a) else raw
  | _, _ => raw

/-- Whether a value is a Python str. -/
def isJStr : JValue → Bool
  | .jstr _ => true
  | _ => false

/-- Whether a value is a non-container scalar (None/bool/int/float), on
which Python's `in` raises TypeError. -/
def isScalarJ : JValue → Bool
  | .jnull => true
  | .jbool _ => true
  | .jint _ => true
  | .jfloat _ => true
  | _ => false

/-- Key present in a dict (any value type). -/
def hasKey (kvs : List (List Char × JValue)) (k : List Char) : Bool :=
  kvs.any (fun p => p.1 == k)

/-- A node entry the node loop renders without raising: a dict with an
`id` key (any value — the f-string accepts anything) and a string
`label`. -/
def nodeRenders (v : JValue) : Bool :=
  match v with
  | .jobj kvs =>
    (lookupKey kvs (cs "id")).isSome &&
      (match lookupKey kvs (cs "label") with
       | some (.jstr _) => true
       | _ => false)
  | _ => false

/-- An edge entry the edge loop renders without raising: a dict with
`from` and `to` keys (any values) and an absent-or-string `label`.
Whether `from`/`to` name a declared node is deliberately NOT part of
this predicate: the loop never consults the node list. -/
def edgeRenders (v : JValue) : Bool :=
  match v with
  | .jobj kvs =>
    (lookupKey kvs (cs "from")).isSome && (lookupKey kvs (cs "to")).isSome &&
      (match (lookupKey kvs (cs "label")).getD (JValue.jstr []) with
       | .jstr _ => true
       | _ => false)
  | _ => false

/-- Raw text containing neither `\x7b` nor `\x7d`. -/
def hasNoBraces (raw : List Char) : Bool :=
  raw.all (fun c => ¬ c = '{' && ¬ c = '}')

/-- Serialization of the trailing key/value pairs of a JSON object whose
values are strings: `,"k":"v",...\x7d` (compact form). -/
def serPairsTail : List (List Char × List Char) → List Char
  | [] => ['}']
  | (k, v) :: t => ',' :: (strLit k ++ ':' :: (strLit v ++ serPairsTail t))

theorem hexVal_hexDigitChar : ∀ n, n < 16 → hexVal (hexDigitChar n) = some n := by
  decide

theorem parseStringBody_cons_char (c : Char) (h1 : ¬c = '"') (h2 : ¬c = '\\')
    (h3 : ¬c.toNat < 0x20) (X : List Char) :
    parseStringBody (c :: X) =
      (match parseStringBody X with
       | some (s, r) => some (c :: s, r)
       | none => none) := by
  conv_lhs => unfold parseStringBody
  rw [if_neg h1, if_neg h2, if_neg h3]

theorem parseStringBody_esc_quote (X : List Char) :
    parseStringBody ('\\' :: '"' :: X) =
      (match parseStringBody X with
       | some (s, r) => some ('"' :: s, r)
       | none => none) := rfl

theorem parseStringBody_esc_backslash (X : List Char) :
    parseStringBody ('\\' :: '\\' :: X) =
      (match parseStringBody X with
       | some (s, r) => some ('\\' :: s, r)
       | none => none) := rfl

theorem parseStringBody_u (e1 e2 e3 e4 : Char) (a b c2 d : Nat)
    (h1 : hexVal e1 = some a) (h2 : hexVal e2 = some b)
    (h3 : hexVal e3 = some c2) (h4 : hexVal e4 = some d) (X : List Char) :
    parseStringBody ('\\' :: 'u' :: e1 :: e2 :: e3 :: e4 :: X) =
      (match parseStringBody X with
       | some (s, r) => some (Char.ofNat (4096 * a + 256 * b + 16 * c2 + d) :: s, r)
       | none => none) := by
  have hstep : parseStringBody ('\\' :: 'u' :: e1 :: e2 :: e3 :: e4 :: X) =
      (match hexVal e1, hexVal e2, hexVal e3, hexVal e4 with
       | some a2, some b2, some c3, some d2 =>
         match parseStringBody X with
         | some (s, r) => some (Char.ofNat (4096 * a2 + 256 * b2 + 16 * c3 + d2) :: s, r)
         | none => none
       | _, _, _, _ => none) := rfl
  rw [hstep, h1, h2, h3, h4]

/-- Parsing the escaped serialization of any string recovers it exactly. -/
theorem parseStringBody_esc (s rest : List Char) :
    parseStringBody (jsonEscStr s ++ '"' :: rest) = some (s, rest) := by
  induction s with
  | nil =>
    show parseStringBody ([] ++ '"' :: rest) = some ([], rest)
    rw [List.nil_append]
    conv_lhs => unfold parseStringBody
    rw [if_pos rfl]
  | cons c t ih =>
    rw [show jsonEscStr (c :: t) = jsonEscChar c ++ jsonEscStr t from rfl,
        List.append_assoc]
    unfold jsonEscChar
    by_cases h1 : c = '"'
    · rw [if_pos h1]
      rw [show (['\\', '"'] : List Char) ++ (jsonEscStr t ++ '"' :: rest) =
        '\\' :: '"' :: (jsonEscStr t ++ '"' :: rest) from rfl]
      rw [parseStringBody_esc_quote, ih, h1]
    · rw [if_neg h1]
      by_cases h2 : c = '\\'
      · rw [if_pos h2]
        rw [show (['\\', '\\'] : List Char) ++ (jsonEscStr t ++ '"' :: rest) =
          '\\' :: '\\' :: (jsonEscStr t ++ '"' :: rest) from rfl]
        rw [parseStringBody_esc_backslash, ih, h2]
      · rw [if_neg h2]
        by_cases h3 : c.toNat < 0x20
        · rw [if_pos h3]
          rw [show (['\\', 'u', '0', '0', hexDigitChar (c.toNat / 16),
              hexDigitChar (c.toNat % 16)] : List Char) ++ (jsonEscStr t ++ '"' :: rest) =
            '\\' :: 'u' :: '0' :: '0' :: hexDigitChar (c.toNat / 16) ::
              hexDigitChar (c.toNat % 16) :: (jsonEscStr t ++ '"' :: rest) from rfl]
          rw [parseStringBody_u '0' '0' (hexDigitChar (c.toNat / 16))
            (hexDigitChar (c.toNat % 16)) 0 0 (c.toNat / 16) (c.toNat % 16)
            (by decide) (by decide)
            (hexVal_hexDigitChar _ (by omega))
            (hexVal_hexDigitChar _ (by omega)), ih]
          have hval : 4096 * 0 + 256 * 0 + 16 * (c.toNat / 16) + c.toNat % 16 = c.toNat := by
            omega
          rw [hval, Char.ofNat_toNat]
        · rw [if_neg h3]
          rw [show ([c] : List Char) ++ (jsonEscStr t ++ '"' :: rest) =
            c :: (jsonEscStr t ++ '"' :: rest) from rfl]
          rw [parseStringBody_cons_char c h1 h2 h3, ih]

theorem node_style_eq_spec (label : List Char) :
    node_style label = nodeStyleSpec label := by
  unfold node_style nodeStyleSpec nodeRules
  simp only [List.find?, List.any, Bool.or_false, Bool.or_assoc]
  by_cases h1 : strContains (pyLowerStr label) (cs "start") = true
  · simp [h1]
  · simp only [h1, if_false, Bool.false_eq_true]
    by_cases h2 : (strContains (pyLowerStr label) (cs "check") ||
        (strContains (pyLowerStr label) (cs "if") ||
        (strContains (pyLowerStr label) (cs "loop") ||
        strContains (pyLowerStr label) (cs "condition")))) = true
    · simp [h2]
    · simp only [h2, if_false, Bool.false_eq_true]
      by_cases h3 : (strContains (pyLowerStr label) (cs "return") ||
          strContains (pyLowerStr label) (cs "end")) = true
      · simp [h3]
      · simp only [h3, if_false, Bool.false_eq_true]
        by_cases h4 : (strContains (pyLowerStr label) (cs "call") ||
            strContains (pyLowerStr label) (cs "function")) = true
        · simp [h4]
        · simp only [h4, if_false, Bool.false_eq_true]
          by_cases h5 : (strContains (pyLowerStr label) (cs "initialize") ||
              (strContains (pyLowerStr label) (cs "variable") ||
              strContains (pyLowerStr label) (cs "assign"))) = true
          · simp [h5]
          · simp [h1, h2, h3, h4, h5]

theorem node_style_loop_first (label : List Char)
    (hloop : strContains (pyLowerStr label) (cs "loop") = true) :
    node_style label ≠
      { shape := cs "oval", fillcolor := cs "#8A2BE2", fontcolor := cs "white" } ∧
    (strContains (pyLowerStr label) (cs "start") = false →
      node_style label =
        { shape := cs "diamond", fillcolor := cs "#FFD700", fontcolor := cs "black" }) := by
  unfold node_style
  by_cases h1 : strContains (pyLowerStr label) (cs "start") = true
  · simp [h1, hloop]
    decide
  · simp [h1, hloop]
    decide

theorem edge_color_eq_spec (label : List Char) :
    edge_color label = edgeColorSpec label := by
  unfold edge_color edgeColorSpec edgeRules
  simp only [List.find?]
  by_cases h1 : (pyLowerStr label == cs "yes" ||
      strContains (pyLowerStr label) (cs "true")) = true
  · simp [h1]
  · simp only [h1, if_false, Bool.false_eq_true]
    by_cases h2 : (pyLowerStr label == cs "no" ||
        strContains (pyLowerStr label) (cs "false")) = true
    · simp [h2]
    · simp only [h2, if_false, Bool.false_eq_true]
      by_cases h3 : (strContains (pyLowerStr label) (cs "iteration") ||
          strContains (pyLowerStr label) (cs "loop")) = true
      · simp [h3]
      · simp [h1, h2, h3]

theorem pyFind_eq_firstBrace (s : List Char) :
    pyFind '{' s = firstBraceIdx s := by
  induction s with
  | nil => rfl
  | cons c t ih =>
    unfold pyFind at *
    rw [List.findIdx?_cons]
    by_cases h : c = '{'
    · simp [h, firstBraceIdx]
    · have hb : (c == '{') = false := by simp [h]
      simp [hb, firstBraceIdx, h, ih]

theorem pyRfind_eq_lastBrace (s : List Char) :
    pyRfind '}' s = lastBraceIdx s := by
  induction s with
  | nil => rfl
  | cons c t ih =>
    unfold pyRfind at *
    rw [List.reverse_cons, List.findIdx?_append]
    cases hrev : t.reverse.findIdx? (fun x => x == '}') with
    | some i =>
      have hi : i < t.reverse.length := (List.findIdx?_eq_some_iff_findIdx_eq.mp hrev).1
      rw [List.length_reverse] at hi
      rw [hrev] at ih
      simp only [Option.map_some'] at ih
      simp only [lastBraceIdx, ← ih, Option.or, Option.map, List.length_cons]
      congr 1
      omega
    | none =>
      rw [hrev] at ih
      simp only [Option.map_none'] at ih
      simp only [lastBraceIdx, ← ih, Option.or, List.length_cons]
      by_cases hc : c = '}'
      · simp [hc, List.findIdx?, List.length_reverse]
      · have hb : (c == '}') = false := by simp [hc]
        simp [List.findIdx?, hb, hc]

/-- C1: node style lookup is deterministic and total — for every label it
equals the first-match-wins lookup through the ordered keyword groups
start; check/if/loop/condition; return/end; call/function;
initialize/variable/assign, with box/blue/white when none match
(`nodeStyleSpec`). "Start: factorial(n)" yields oval/green/white,
"Check n <= 1" yields diamond/yellow/black, "" yields the default, and a
label containing both "loop" and "return" never receives the later
return/end rule — it gets the earlier matching rule, which is
diamond/yellow/black whenever no start keyword pre-empts it (green =
#32CD32, yellow = #FFD700, purple = #8A2BE2, blue = #1E90FF). -/
theorem C1_node_styling :
    (∀ label, node_style label = nodeStyleSpec label) ∧
    node_style (cs "Start: factorial(n)") =
      { shape := cs "oval", fillcolor := cs "#32CD32", fontcolor := cs "white" } ∧
    node_style (cs "Check n <= 1") =
      { shape := cs "diamond", fillcolor := cs "#FFD700", fontcolor := cs "black" } ∧
    node_style (cs "") =
      { shape := cs "box", fillcolor := cs "#1E90FF", fontcolor := cs "white" } ∧
    (∀ label, strContains (pyLowerStr label) (cs "loop") = true →
      strContains (pyLowerStr label) (cs "return") = true →
      node_style label ≠
        { shape := cs "oval", fillcolor := cs "#8A2BE2", fontcolor := cs "white" } ∧
      (strContains (pyLowerStr label) (cs "start") = false →
        node_style label =
          { shape := cs "diamond", fillcolor := cs "#FFD700", fontcolor := cs "black" })) :=
  ⟨node_style_eq_spec, by decide, by decide, by decide,
    fun label hl _hr => node_style_loop_first label hl⟩

/-- Witness for C1 at the concrete label "Loop until return". -/
theorem C1_node_styling_witness :
    node_style (cs "Loop until return") ≠
      { shape := cs "oval", fillcolor := cs "#8A2BE2", fontcolor := cs "white" } ∧
    node_style (cs "Loop until return") =
      { shape := cs "diamond", fillcolor := cs "#FFD700", fontcolor := cs "black" } :=
  ⟨(C1_node_styling.2.2.2.2 (cs "Loop until return") (by decide) (by decide)).1,
   (C1_node_styling.2.2.2.2 (cs "Loop until return") (by decide) (by decide)).2 (by decide)⟩

/-- C2 fails as stated: on the raw text "\x7d\x7b" both braces occur, so
the claim makes the candidate the (empty) inclusive substring from the
first `\x7b` (index 1) to the last `\x7d` (index 0), but the code's
`json_end > json_start` guard keeps the entire raw text instead. -/
theorem C2_candidate_counterexample :
    claimedCandidate (cs "\x7d\x7b") = [] ∧
    sliceCandidate (cs "\x7d\x7b") = cs "\x7d\x7b" ∧
    claimedCandidate (cs "\x7d\x7b") ≠ sliceCandidate (cs "\x7d\x7b") := by
  decide

/-- C2 (amended): the candidate is the inclusive first-`\x7b`-to-last-
`\x7d` substring when both occur AND the last `\x7d` lies strictly after
the first `\x7b`; otherwise (either brace absent, or every `\x7d`
precedes the first `\x7b`) the candidate is the entire raw text. -/
theorem C2_candidate_amended (raw : List Char) :
    sliceCandidate raw = amendedCandidate raw := by
  unfold sliceCandidate amendedCandidate
  rw [pyFind_eq_firstBrace, pyRfind_eq_lastBrace]

/-- C6: edge color lookup equals the first-match-wins lookup through the
ordered rules (exactly "yes" or contains "true" → green #32CD32;
exactly "no" or contains "false" → red #FF6347; contains "iteration" or
"loop" → blue #0000FF; default gray #666666), case-insensitively; the
documented instances hold, the empty label matches no rule, and an edge
dict without a label key is drawn gray. -/
theorem C6_edge_color_rules :
    (∀ label, edge_color label = edgeColorSpec label) ∧
    edge_color (cs "Yes") = cs "#32CD32" ∧
    edge_color (cs "No") = cs "#FF6347" ∧
    edge_color (cs "Next Iteration") = cs "#0000FF" ∧
    edge_color (cs "") = cs "#666666" ∧
    (∀ fs ts, renderEdge (JValue.jobj
        [(cs "from", JValue.jstr fs), (cs "to", JValue.jstr ts)]) =
      some { efrom := cs "N_" ++ fs, eto := cs "N_" ++ ts, label := [],
             color := cs "#666666", penwidth := cs "2.0" }) :=
  ⟨edge_color_eq_spec, by decide, by decide, by decide, by decide,
   fun _fs _ts => rfl⟩

theorem pyStrip_eq_nil_of_all_space (code : List Char)
    (h : code.all pyIsSpace = true) : pyStrip code = [] := by
  unfold pyStrip
  have h1 : code.dropWhile pyIsSpace = [] := by
    rw [List.dropWhile_eq_nil_iff]
    intro x hx
    exact List.all_eq_true.mp h x hx
  rw [h1]
  rfl

theorem sliceCandidate_of_noBraces (raw : List Char)
    (h : hasNoBraces raw = true) : sliceCandidate raw = raw := by
  unfold sliceCandidate
  have hf : pyFind '{' raw = none := by
    unfold pyFind
    rw [List.findIdx?_eq_none_iff]
    intro x hx
    have := List.all_eq_true.mp h x hx
    simp only [Bool.and_eq_true, decide_eq_true_eq] at this
    simp [this.1]
  rw [hf]

theorem extractGraph_malformed_iff (raw : List Char)
    (hslice : sliceCandidate raw = raw) :
    extractGraph raw = ExtractResult.malformed raw ↔ jsonParse raw = none := by
  constructor
  · intro h
    unfold extractGraph at h
    rw [hslice] at h
    cases hp : jsonParse raw with
    | none => rfl
    | some v =>
      rw [hp] at h
      dsimp only at h
      cases hn : pyIn (cs "nodes") v with
      | none => rw [hn] at h; cases h
      | some b =>
        cases b with
        | false => rw [hn] at h; cases h
        | true =>
          rw [hn] at h
          cases he : pyIn (cs "edges") v with
          | none => rw [he] at h; cases h
          | some b2 =>
            cases b2 with
            | false => rw [he] at h; cases h
            | true => rw [he] at h; cases h
  · intro h
    unfold extractGraph
    rw [hslice, h]

/-- C10: when the Generate action fires with a code input that is empty
or all whitespace, the app only warns: the outcome is the warning, and it
is independent of whatever the completion service would have answered —
no completion call, extraction, or rendering happens for that attempt. -/
theorem C10_empty_input (code flow expl flow2 expl2 : List Char)
    (h : code.all pyIsSpace = true) :
    runGenerate code flow expl = GenOutcome.warnedEmpty ∧
    runGenerate code flow expl = runGenerate code flow2 expl2 := by
  have hs : pyStrip code = [] := pyStrip_eq_nil_of_all_space code h
  constructor
  · unfold runGenerate
    rw [if_pos hs]
  · unfold runGenerate
    rw [if_pos hs, if_pos hs]

/-- Witness for C10 on a concrete all-whitespace input. -/
theorem C10_witness :
    runGenerate (cs "  \n\t ") (cs "AAA") (cs "BBB") = GenOutcome.warnedEmpty ∧
    runGenerate (cs "  \n\t ") (cs "AAA") (cs "BBB") =
      runGenerate (cs "  \n\t ") (cs "other") (cs "resp") :=
  C10_empty_input (cs "  \n\t ") (cs "AAA") (cs "BBB") (cs "other") (cs "resp")
    (by decide)

/-- C4: whenever strict JSON parsing of the candidate substring fails,
extraction fails with MalformedOutput carrying the raw flowchart text
verbatim (the same string the pipeline received from the completion,
post-strip), and the generation attempt ends at the error display — the
outcome is `errorMalformed`, never `rendered`. No recovery beyond the
brace slicing exists: `extractGraph` consults only
`jsonParse (sliceCandidate raw)`. -/
theorem C4_malformed_aborts (code flow expl : List Char)
    (hcode : pyStrip code ≠ [])
    (hparse : jsonParse (sliceCandidate (pyStrip flow)) = none) :
    extractGraph (pyStrip flow) = ExtractResult.malformed (pyStrip flow) ∧
    runGenerate code flow expl = GenOutcome.errorMalformed (pyStrip flow) := by
  have he : extractGraph (pyStrip flow) = ExtractResult.malformed (pyStrip flow) := by
    unfold extractGraph
    rw [hparse]
  refine ⟨he, ?_⟩
  unfold runGenerate
  rw [if_neg hcode, he]

/-- Witness for C4 on a concrete unparseable completion. -/
theorem C4_malformed_aborts_witness :
    extractGraph (pyStrip (cs " model refused to answer ")) =
      ExtractResult.malformed (cs "model refused to answer") ∧
    runGenerate (cs "def f(): pass") (cs " model refused to answer ") (cs "expl") =
      GenOutcome.errorMalformed (cs "model refused to answer") :=
  C4_malformed_aborts (cs "def f(): pass") (cs " model refused to answer ")
    (cs "expl") (by decide) (by rfl)

/-- C3 fails as stated: a brace-free raw text can be valid JSON, in which
case extraction does not fail with MalformedOutput — `["nodes", "edges"]`
even passes the key validation (Python list membership) and extraction
succeeds, while `[]` fails with MissingField. -/
theorem C3_counterexample_valid_json :
    hasNoBraces (cs "[\"nodes\", \"edges\"]") = true ∧
    extractGraph (cs "[\"nodes\", \"edges\"]") =
      ExtractResult.ok (JValue.jarr [JValue.jstr (cs "nodes"), JValue.jstr (cs "edges")]) ∧
    extractGraph (cs "[]") = ExtractResult.missingField (cs "[]") :=
  ⟨by decide, rfl, rfl⟩

/-- C3 (amended): on a raw text with no `\x7b` and no `\x7d` the whole
text is the candidate, and extraction fails with MalformedOutput exactly
when the text is not itself valid JSON; brace-free text that happens to
be valid JSON instead proceeds to key validation like any parse success. -/
theorem C3_braceless_malformed (raw : List Char)
    (hb : hasNoBraces raw = true) :
    sliceCandidate raw = raw ∧
    (extractGraph raw = ExtractResult.malformed raw ↔ jsonParse raw = none) := by
  have hs := sliceCandidate_of_noBraces raw hb
  exact ⟨hs, extractGraph_malformed_iff raw hs⟩

/-- Witness for C3 (amended) on concrete brace-free prose. -/
theorem C3_braceless_malformed_witness :
    extractGraph (cs "no json here") = ExtractResult.malformed (cs "no json here") :=
  ((C3_braceless_malformed (cs "no json here") (by decide)).2).mpr (by rfl)

/-- C5 (amended): when the candidate parses to a JSON object, extraction
accepts it as the FlowGraph whenever both `nodes` and `edges` keys are
present (values of any type, no deeper schema validation) and fails with
MissingField surfacing the raw text whenever either key is absent; but
when the candidate parses to a bare scalar (null/bool/number), the
membership test `"nodes" in graph_data` raises TypeError and the attempt
ends in the generic error handler instead of MissingField. -/
theorem C5_key_validation :
    (∀ raw kvs, jsonParse (sliceCandidate raw) = some (JValue.jobj kvs) →
      ((hasKey kvs (cs "nodes") && hasKey kvs (cs "edges")) = true →
        extractGraph raw = ExtractResult.ok (JValue.jobj kvs)) ∧
      ((hasKey kvs (cs "nodes") && hasKey kvs (cs "edges")) = false →
        extractGraph raw = ExtractResult.missingField raw)) ∧
    (∀ raw v, jsonParse (sliceCandidate raw) = some v → isScalarJ v = true →
      extractGraph raw = ExtractResult.pyError) := by
  constructor
  · intro raw kvs hp
    have hpy : ∀ k, pyIn k (JValue.jobj kvs) = some (hasKey kvs k) := fun _ => rfl
    unfold extractGraph
    rw [hp]
    constructor
    · intro hb
      obtain ⟨hn, he⟩ := (Bool.and_eq_true _ _).mp hb
      simp only [hpy, hn, he]
    · intro hb
      cases hn : hasKey kvs (cs "nodes") with
      | false => simp only [hpy, hn]
      | true =>
        have he : hasKey kvs (cs "edges") = false := by
          cases he2 : hasKey kvs (cs "edges")
          · rfl
          · rw [hn, he2] at hb; cases hb
        simp only [hpy, hn, he]
  · intro raw v hp hs
    unfold extractGraph
    rw [hp]
    cases v with
    | jnull => rfl
    | jbool b => rfl
    | jint n => rfl
    | jfloat l => rfl
    | jstr s => simp [isScalarJ] at hs
    | jarr xs => simp [isScalarJ] at hs
    | jobj kvs => simp [isScalarJ] at hs

/-- Witness for C5 (amended) on concrete accepted, missing-key, and
scalar candidates. -/
theorem C5_key_validation_witness :
    extractGraph (cs "\x7b\"nodes\": [], \"edges\": []\x7d") =
      ExtractResult.ok (JValue.jobj [(cs "nodes", JValue.jarr []), (cs "edges", JValue.jarr [])]) ∧
    extractGraph (cs "\x7b\"nodes\": []\x7d") =
      ExtractResult.missingField (cs "\x7b\"nodes\": []\x7d") ∧
    extractGraph (cs "123") = ExtractResult.pyError :=
  ⟨(C5_key_validation.1 (cs "\x7b\"nodes\": [], \"edges\": []\x7d")
      [(cs "nodes", JValue.jarr []), (cs "edges", JValue.jarr [])] (by rfl)).1 (by decide),
   (C5_key_validation.1 (cs "\x7b\"nodes\": []\x7d")
      [(cs "nodes", JValue.jarr [])] (by rfl)).2 (by decide),
   C5_key_validation.2 (cs "123") (JValue.jint 123) (by rfl) (by decide)⟩

/-- C5 fails as stated: the raw text `123` parses as JSON and the parsed
value has no `nodes` key, yet extraction does not fail with MissingField —
the membership test raises TypeError (generic error path). -/
theorem C5_counterexample_scalar :
    extractGraph (cs "123") = ExtractResult.pyError ∧
    extractGraph (cs "123") ≠ ExtractResult.missingField (cs "123") :=
  ⟨rfl, fun h => nomatch h⟩

theorem renderList_none_of_mem {α : Type} (f : JValue → Option α)
    (xs : List JValue) (x : JValue) (hx : x ∈ xs) (hf : f x = none) :
    renderList f xs = none := by
  induction xs with
  | nil => cases hx
  | cons y ys ih =>
    unfold renderList
    rcases List.mem_cons.mp hx with h | h
    · rw [← h, hf]
    · cases hfy : f y with
      | none => rfl
      | some a => rw [ih h]

theorem renderList_some_of_all {α : Type} (f : JValue → Option α)
    (xs : List JValue) (h : ∀ x ∈ xs, (f x).isSome = true) :
    ∃ ys, renderList f xs = some ys ∧ ys.length = xs.length := by
  induction xs with
  | nil => exact ⟨[], rfl, rfl⟩
  | cons y ys ih =>
    obtain ⟨a, ha⟩ := Option.isSome_iff_exists.mp (h y (List.mem_cons_self y ys))
    obtain ⟨bs, hbs, hlen⟩ := ih (fun x hx => h x (List.mem_cons_of_mem y hx))
    refine ⟨a :: bs, ?_, by simp [hlen]⟩
    unfold renderList
    rw [ha, hbs]

theorem renderNode_isSome_of_wf (v : JValue) (h : nodeRenders v = true) :
    (renderNode v).isSome = true := by
  cases v with
  | jobj kvs =>
    unfold nodeRenders at h
    obtain ⟨h1, h2⟩ := (Bool.and_eq_true _ _).mp h
    obtain ⟨idv, hid⟩ := Option.isSome_iff_exists.mp h1
    unfold renderNode pySubscript
    dsimp only
    rw [hid]
    cases hl : lookupKey kvs (cs "label") with
    | none => rw [hl] at h2; cases h2
    | some lv =>
      rw [hl] at h2
      cases lv <;> simp_all
  | jnull => cases h
  | jbool b => cases h
  | jint n => cases h
  | jfloat l => cases h
  | jstr s => cases h
  | jarr xs => cases h

theorem renderEdge_isSome_of_wf (v : JValue) (h : edgeRenders v = true) :
    (renderEdge v).isSome = true := by
  cases v with
  | jobj kvs =>
    unfold edgeRenders at h
    obtain ⟨h12, h3⟩ := (Bool.and_eq_true _ _).mp h
    obtain ⟨h1, h2⟩ := (Bool.and_eq_true _ _).mp h12
    obtain ⟨fv, hf⟩ := Option.isSome_iff_exists.mp h1
    obtain ⟨tv, ht⟩ := Option.isSome_iff_exists.mp h2
    unfold renderEdge
    dsimp only
    rw [hf, ht]
    cases hl : (lookupKey kvs (cs "label")).getD (JValue.jstr []) with
    | jstr s => rfl
    | jnull => rw [hl] at h3; cases h3
    | jbool b => rw [hl] at h3; cases h3
    | jint n => rw [hl] at h3; cases h3
    | jfloat l => rw [hl] at h3; cases h3
    | jarr xs => rw [hl] at h3; cases h3
    | jobj kvs2 => rw [hl] at h3; cases h3
  | jnull => cases h
  | jbool b => cases h
  | jint n => cases h
  | jfloat l => cases h
  | jstr s => cases h
  | jarr xs => cases h

theorem renderEdge_none_of_nonstring_label (ekvs : List (List Char × JValue))
    (lv : JValue) (hl : lookupKey ekvs (cs "label") = some lv)
    (hs : isJStr lv = false) : renderEdge (JValue.jobj ekvs) = none := by
  unfold renderEdge
  dsimp only
  cases hf : lookupKey ekvs (cs "from") with
  | none => rfl
  | some fv =>
    cases ht : lookupKey ekvs (cs "to") with
    | none => rfl
    | some tv =>
      rw [hl]
      cases lv <;> simp_all [isJStr]

theorem renderNode_none_of_missing_id (nkvs : List (List Char × JValue))
    (h : lookupKey nkvs (cs "id") = none) :
    renderNode (JValue.jobj nkvs) = none := by
  unfold renderNode pySubscript
  dsimp only
  rw [h]

theorem renderGraph_some_of_wf (kvs : List (List Char × JValue))
    (nl el : List JValue)
    (hn : lookupKey kvs (cs "nodes") = some (JValue.jarr nl))
    (he : lookupKey kvs (cs "edges") = some (JValue.jarr el))
    (hwfn : ∀ n ∈ nl, nodeRenders n = true)
    (hwfe : ∀ e ∈ el, edgeRenders e = true) :
    ∃ d, renderGraph (JValue.jobj kvs) = some d ∧
      d.nodes.length = nl.length ∧ d.edges.length = el.length := by
  obtain ⟨rns, hrns, hlen1⟩ := renderList_some_of_all renderNode nl
    (fun n hn2 => renderNode_isSome_of_wf n (hwfn n hn2))
  obtain ⟨res, hres, hlen2⟩ := renderList_some_of_all renderEdge el
    (fun e he2 => renderEdge_isSome_of_wf e (hwfe e he2))
  unfold renderGraph pySubscript
  dsimp only
  rw [hn]
  dsimp only [pyIterate]
  rw [hrns, he]
  dsimp only [pyIterate]
  rw [hres]
  exact ⟨_, rfl, hlen1, hlen2⟩

theorem renderGraph_none_of_node_mem (kvs : List (List Char × JValue))
    (nl : List JValue) (n : JValue)
    (hn : lookupKey kvs (cs "nodes") = some (JValue.jarr nl))
    (hmem : n ∈ nl) (hbad : renderNode n = none) :
    renderGraph (JValue.jobj kvs) = none := by
  unfold renderGraph pySubscript
  dsimp only
  rw [hn]
  dsimp only [pyIterate]
  rw [renderList_none_of_mem renderNode nl n hmem hbad]

theorem renderGraph_none_of_edge_mem (kvs : List (List Char × JValue))
    (el : List JValue) (e : JValue)
    (he : lookupKey kvs (cs "edges") = some (JValue.jarr el))
    (hmem : e ∈ el) (hbad : renderEdge e = none) :
    renderGraph (JValue.jobj kvs) = none := by
  have hre : renderList renderEdge el = none :=
    renderList_none_of_mem renderEdge el e hmem hbad
  unfold renderGraph pySubscript
  dsimp only
  cases hn : lookupKey kvs (cs "nodes") with
  | none => rfl
  | some nv =>
    dsimp only
    cases hit : pyIterate nv with
    | none => rfl
    | some nitems =>
      dsimp only
      cases hrl : renderList renderNode nitems with
      | none => rfl
      | some rns =>
        dsimp only
        rw [he]
        dsimp only [pyIterate]
        rw [hre]

theorem runGenerate_genericError_of_render (code flow expl : List Char)
    (v : JValue) (hcode : pyStrip code ≠ [])
    (hex : extractGraph (pyStrip flow) = ExtractResult.ok v)
    (hr : renderGraph v = none) :
    runGenerate code flow expl = GenOutcome.genericError := by
  unfold runGenerate
  rw [if_neg hcode, hex]
  dsimp only
  rw [hr]

/-- C8 fails as stated: dangling edge references are indeed tolerated
(first conjunct of the amended theorem below), but a node entry missing
its `id` raises KeyError, which the generic handler turns into a
whole-attempt failure — the render does not complete and no diagram is
shown. Here a syntactically valid graph whose single node is `\x7b\x7d`
extracts fine, yet rendering aborts and the pipeline ends in the generic
error. -/
theorem C8_counterexample_missing_id :
    extractGraph (cs "\x7b\"nodes\": [\x7b\x7d], \"edges\": []\x7d") =
      ExtractResult.ok (JValue.jobj [(cs "nodes", JValue.jarr [JValue.jobj []]),
        (cs "edges", JValue.jarr [])]) ∧
    renderGraph (JValue.jobj [(cs "nodes", JValue.jarr [JValue.jobj []]),
        (cs "edges", JValue.jarr [])]) = none ∧
    runGenerate (cs "x") (cs "\x7b\"nodes\": [\x7b\x7d], \"edges\": []\x7d") (cs "e") =
      GenOutcome.genericError :=
  ⟨rfl, rfl, rfl⟩

/-- C8 (amended): for a graph that passes key validation, an edge whose
`from`/`to` reference no declared node id does NOT abort the diagram —
the rendering loops never consult whether endpoints are declared, so any
graph of well-formed entries renders completely, one drawn node/edge per
entry, dangling or not. But a node entry missing its `id` key raises
KeyError: the entire render is dropped and the generation attempt ends
in the generic error handler (nothing is skipped per-element). -/
theorem C8_structural_issues :
    (∀ kvs nl el,
      lookupKey kvs (cs "nodes") = some (JValue.jarr nl) →
      lookupKey kvs (cs "edges") = some (JValue.jarr el) →
      (∀ n ∈ nl, nodeRenders n = true) →
      (∀ e ∈ el, edgeRenders e = true) →
      ∃ d, renderGraph (JValue.jobj kvs) = some d ∧
        d.nodes.length = nl.length ∧ d.edges.length = el.length) ∧
    (∀ code flow expl kvs nl nkvs,
      pyStrip code ≠ [] →
      extractGraph (pyStrip flow) = ExtractResult.ok (JValue.jobj kvs) →
      lookupKey kvs (cs "nodes") = some (JValue.jarr nl) →
      JValue.jobj nkvs ∈ nl →
      lookupKey nkvs (cs "id") = none →
      runGenerate code flow expl = GenOutcome.genericError) := by
  constructor
  · intro kvs nl el hn he hwfn hwfe
    exact renderGraph_some_of_wf kvs nl el hn he hwfn hwfe
  · intro code flow expl kvs nl nkvs hcode hex hn hmem hid
    exact runGenerate_genericError_of_render code flow expl _ hcode hex
      (renderGraph_none_of_node_mem kvs nl (JValue.jobj nkvs) hn hmem
        (renderNode_none_of_missing_id nkvs hid))

/-- Witness for C8 (amended): a concrete graph with one well-formed node
and one edge pointing at the undeclared id "ZZ" renders completely. -/
theorem C8_structural_issues_witness :
    (renderGraph (JValue.jobj
      [(cs "nodes", JValue.jarr [JValue.jobj
          [(cs "id", JValue.jstr (cs "A")), (cs "label", JValue.jstr (cs "Start"))]]),
       (cs "edges", JValue.jarr [JValue.jobj
          [(cs "from", JValue.jstr (cs "A")), (cs "to", JValue.jstr (cs "ZZ"))]])])).isSome
      = true := by
  obtain ⟨d, hd, -, -⟩ := C8_structural_issues.1
    [(cs "nodes", JValue.jarr [JValue.jobj
        [(cs "id", JValue.jstr (cs "A")), (cs "label", JValue.jstr (cs "Start"))]]),
     (cs "edges", JValue.jarr [JValue.jobj
        [(cs "from", JValue.jstr (cs "A")), (cs "to", JValue.jstr (cs "ZZ"))]])]
    [JValue.jobj [(cs "id", JValue.jstr (cs "A")), (cs "label", JValue.jstr (cs "Start"))]]
    [JValue.jobj [(cs "from", JValue.jstr (cs "A")), (cs "to", JValue.jstr (cs "ZZ"))]]
    rfl rfl (by decide) (by decide)
  rw [hd]
  rfl

/-- C9: when an edge object carries a `label` key whose value is not a
string (e.g. JSON null), the color chain's `.lower()` raises, the edge
is not drawn gray, and — provided extraction succeeded — the entire
generation attempt ends in the generic error handler. -/
theorem C9_nonstring_label (code flow expl : List Char)
    (kvs ekvs : List (List Char × JValue)) (el : List JValue) (lv : JValue)
    (hcode : pyStrip code ≠ [])
    (hex : extractGraph (pyStrip flow) = ExtractResult.ok (JValue.jobj kvs))
    (hedges : lookupKey kvs (cs "edges") = some (JValue.jarr el))
    (hmem : JValue.jobj ekvs ∈ el)
    (hlbl : lookupKey ekvs (cs "label") = some lv)
    (hstr : isJStr lv = false) :
    renderEdge (JValue.jobj ekvs) = none ∧
    runGenerate code flow expl = GenOutcome.genericError := by
  have hre := renderEdge_none_of_nonstring_label ekvs lv hlbl hstr
  exact ⟨hre, runGenerate_genericError_of_render code flow expl _ hcode hex
    (renderGraph_none_of_edge_mem kvs el _ hedges hmem hre)⟩

/-- Witness for C9 on a concrete completion whose single edge has
`"label": null`. -/
theorem C9_nonstring_label_witness :
    runGenerate (cs "x")
      (cs "\x7b\"nodes\": [], \"edges\": [\x7b\"from\": \"A\", \"to\": \"B\", \"label\": null\x7d]\x7d")
      (cs "e") = GenOutcome.genericError :=
  (C9_nonstring_label (cs "x")
    (cs "\x7b\"nodes\": [], \"edges\": [\x7b\"from\": \"A\", \"to\": \"B\", \"label\": null\x7d]\x7d")
    (cs "e")
    [(cs "nodes", JValue.jarr []),
     (cs "edges", JValue.jarr [JValue.jobj
        [(cs "from", JValue.jstr (cs "A")), (cs "to", JValue.jstr (cs "B")),
         (cs "label", JValue.jnull)]])]
    [(cs "from", JValue.jstr (cs "A")), (cs "to", JValue.jstr (cs "B")),
     (cs "label", JValue.jnull)]
    [JValue.jobj [(cs "from", JValue.jstr (cs "A")), (cs "to", JValue.jstr (cs "B")),
      (cs "label", JValue.jnull)]]
    JValue.jnull
    (by decide) (by rfl) (by rfl) (List.mem_cons_self _ _) (by rfl) (by rfl)).2

theorem skipWs_quote (r : List Char) : skipWs ('"' :: r) = '"' :: r := rfl
theorem skipWs_colon (r : List Char) : skipWs (':' :: r) = ':' :: r := rfl
theorem skipWs_comma (r : List Char) : skipWs (',' :: r) = ',' :: r := rfl
theorem skipWs_obrace (r : List Char) : skipWs ('{' :: r) = '{' :: r := rfl
theorem skipWs_cbrace (r : List Char) : skipWs ('}' :: r) = '}' :: r := rfl
theorem skipWs_obracket (r : List Char) : skipWs ('[' :: r) = '[' :: r := rfl
theorem skipWs_cbracket (r : List Char) : skipWs (']' :: r) = ']' :: r := rfl

theorem strLit_append (s z : List Char) :
    strLit s ++ z = '"' :: (jsonEscStr s ++ '"' :: z) := by
  simp [strLit]

theorem parseValue_obrace (fuel : Nat) (r : List Char) :
    parseValue (fuel + 1) ('{' :: r) =
      (match parseObjBody fuel (skipWs r) with
       | some (ps, r1) => some (mkObj ps, r1)
       | none => none) := rfl

theorem parseValue_obracket (fuel : Nat) (r : List Char) :
    parseValue (fuel + 1) ('[' :: r) =
      (match parseArrBody fuel (skipWs r) with
       | some (vs, r1) => some (JValue.jarr vs, r1)
       | none => none) := rfl

theorem parseValue_strLit (fuel : Nat) (s rest : List Char) :
    parseValue (fuel + 1) (strLit s ++ rest) = some (JValue.jstr s, rest) := by
  rw [strLit_append]
  have h : parseValue (fuel + 1) ('"' :: (jsonEscStr s ++ '"' :: rest)) =
      (match parseStringBody (jsonEscStr s ++ '"' :: rest) with
       | some (str, r1) => some (JValue.jstr str, r1)
       | none => none) := rfl
  rw [h, parseStringBody_esc]

theorem parseObjBody_close (fuel : Nat) (r : List Char) :
    parseObjBody (fuel + 1) ('}' :: r) = some ([], r) := rfl

theorem parseObjBody_key (fuel : Nat) (r : List Char) :
    parseObjBody (fuel + 1) ('"' :: r) =
      (match parseStringBody r with
       | some (k, r1) =>
         (match skipWs r1 with
          | ':' :: r2 =>
            (match parseValue fuel (skipWs r2) with
             | some (v, r3) =>
               (match parseObjTail fuel (skipWs r3) with
                | some (ps, r4) => some ((k, v) :: ps, r4)
                | none => none)
             | none => none)
          | _ => none)
       | none => none) := rfl

theorem parseObjTail_close (fuel : Nat) (r : List Char) :
    parseObjTail (fuel + 1) ('}' :: r) = some ([], r) := rfl

theorem parseObjTail_comma (fuel : Nat) (r : List Char) :
    parseObjTail (fuel + 1) (',' :: r) =
      (match skipWs r with
       | '"' :: r1 =>
         (match parseStringBody r1 with
          | some (k, r2) =>
            (match skipWs r2 with
             | ':' :: r3 =>
               (match parseValue fuel (skipWs r3) with
                | some (v, r4) =>
                  (match parseObjTail fuel (skipWs r4) with
                   | some (ps, r5) => some ((k, v) :: ps, r5)
                   | none => none)
                | none => none)
             | _ => none)
          | none => none)
       | _ => none) := rfl

theorem parseArrBody_close (fuel : Nat) (r : List Char) :
    parseArrBody (fuel + 1) (']' :: r) = some ([], r) := rfl

theorem parseArrBody_obrace (fuel : Nat) (r : List Char) :
    parseArrBody (fuel + 1) ('{' :: r) =
      (match parseValue fuel ('{' :: r) with
       | some (v, r1) =>
         (match parseArrTail fuel (skipWs r1) with
          | some (vs, r2) => some (v :: vs, r2)
          | none => none)
       | none => none) := rfl

theorem parseArrTail_close (fuel : Nat) (r : List Char) :
    parseArrTail (fuel + 1) (']' :: r) = some ([], r) := rfl

theorem parseArrTail_comma (fuel : Nat) (r : List Char) :
    parseArrTail (fuel + 1) (',' :: r) =
      (match parseValue fuel (skipWs r) with
       | some (v, r1) =>
         (match parseArrTail fuel (skipWs r1) with
          | some (vs, r2) => some (v :: vs, r2)
          | none => none)
       | none => none) := rfl

theorem skipWs_strLit (s z : List Char) :
    skipWs (strLit s ++ z) = strLit s ++ z := by
  rw [strLit_append]
  exact skipWs_quote _

theorem skipWs_serPairsTail (ps : List (List Char × List Char)) (rest : List Char) :
    skipWs (serPairsTail ps ++ rest) = serPairsTail ps ++ rest := by
  cases ps with
  | nil => exact skipWs_cbrace rest
  | cons p t =>
    obtain ⟨k, v⟩ := p
    rw [show serPairsTail ((k, v) :: t) ++ rest =
      ',' :: ((strLit k ++ (':' :: (strLit v ++ (serPairsTail t ++ rest))))) from by
        simp [serPairsTail]]
    exact skipWs_comma _

/-- Parsing the serialized trailing pairs of a string-valued object
recovers them exactly. -/
theorem parseObjTail_pairs (ps : List (List Char × List Char)) :
    ∀ (fuel : Nat) (rest : List Char),
    parseObjTail (fuel + 2 * ps.length + 1) (serPairsTail ps ++ rest) =
      some (ps.map (fun p => (p.1, JValue.jstr p.2)), rest) := by
  induction ps with
  | nil =>
    intro fuel rest
    exact parseObjTail_close (fuel + 0) rest
  | cons p t ih =>
    intro fuel rest
    obtain ⟨k, v⟩ := p
    rw [show serPairsTail ((k, v) :: t) ++ rest =
      ',' :: (strLit k ++ (':' :: (strLit v ++ (serPairsTail t ++ rest)))) from by
        simp [serPairsTail]]
    rw [show fuel + 2 * (((k, v) :: t).length) + 1 = (fuel + 2 * t.length + 2) + 1 from by
        simp [List.length_cons]; ring]
    rw [parseObjTail_comma (fuel + 2 * t.length + 2)]
    rw [strLit_append k, skipWs_quote]
    simp only [parseStringBody_esc, skipWs_colon, skipWs_strLit]
    rw [show fuel + 2 * t.length + 2 = (fuel + 2 * t.length + 1) + 1 from rfl]
    rw [parseValue_strLit (fuel + 2 * t.length + 1) v (serPairsTail t ++ rest)]
    dsimp only
    rw [skipWs_serPairsTail]
    rw [show (fuel + 2 * t.length + 1) + 1 = (fuel + 1) + 2 * t.length + 1 from by ring]
    rw [ih (fuel + 1) rest]
    rfl

/-- Parsing a serialized object whose values are all strings recovers the
corresponding Python dict. -/
theorem parse_str_object (k v : List Char) (ps : List (List Char × List Char))
    (fuel : Nat) (rest : List Char) :
    parseValue (fuel + 2 * ps.length + 3)
      ('{' :: (strLit k ++ (':' :: (strLit v ++ (serPairsTail ps ++ rest))))) =
      some (mkObj ((k, JValue.jstr v) ::
        ps.map (fun p => (p.1, JValue.jstr p.2))), rest) := by
  rw [show fuel + 2 * ps.length + 3 = (fuel + 2 * ps.length + 2) + 1 from rfl]
  rw [parseValue_obrace]
  rw [skipWs_strLit]
  rw [show fuel + 2 * ps.length + 2 = (fuel + 2 * ps.length + 1) + 1 from rfl]
  rw [strLit_append k]
  rw [parseObjBody_key (fuel + 2 * ps.length + 1)]
  simp only [parseStringBody_esc, skipWs_colon, skipWs_strLit]
  rw [parseValue_strLit (fuel + 2 * ps.length) v (serPairsTail ps ++ rest)]
  simp only [skipWs_serPairsTail]
  rw [parseObjTail_pairs ps fuel rest]

theorem parse_node (n : FlowNode) (fuel : Nat) (rest : List Char) :
    parseValue (fuel + 7) (nodeToJson n ++ rest) = some (nodeJ n, rest) := by
  have hshape : nodeToJson n ++ rest =
      '{' :: (strLit (cs "id") ++ (':' :: (strLit n.id ++
        (serPairsTail [(cs "label", n.label)] ++ rest)))) := by
    simp [nodeToJson, serPairsTail]
  rw [hshape]
  rw [show fuel + 7 =
    (fuel + 2) + 2 * ([(cs "label", n.label)]).length + 3 from by
      simp]
  rw [parse_str_object (cs "id") n.id [(cs "label", n.label)] (fuel + 2) rest]
  rfl

theorem parse_edge (e : FlowEdge) (fuel : Nat) (rest : List Char) :
    parseValue (fuel + 7) (edgeToJson e ++ rest) = some (edgeJ e, rest) := by
  cases hl : e.label with
  | none =>
    have hres : edgeJ e = JValue.jobj
        [(cs "from", JValue.jstr e.efrom), (cs "to", JValue.jstr e.eto)] := by
      simp [edgeJ, hl]
    have hshape : edgeToJson e ++ rest =
        '{' :: (strLit (cs "from") ++ (':' :: (strLit e.efrom ++
          (serPairsTail [(cs "to", e.eto)] ++ rest)))) := by
      simp [edgeToJson, serPairsTail, hl]
    rw [hshape]
    rw [show fuel + 7 =
      (fuel + 2) + 2 * ([(cs "to", e.eto)]).length + 3 from by
        simp]
    rw [parse_str_object (cs "from") e.efrom [(cs "to", e.eto)] (fuel + 2) rest]
    rw [hres]
    rfl
  | some l =>
    have hres : edgeJ e = JValue.jobj
        [(cs "from", JValue.jstr e.efrom), (cs "to", JValue.jstr e.eto),
         (cs "label", JValue.jstr l)] := by
      simp [edgeJ, hl]
    have hshape : edgeToJson e ++ rest =
        '{' :: (strLit (cs "from") ++ (':' :: (strLit e.efrom ++
          (serPairsTail [(cs "to", e.eto), (cs "label", l)] ++ rest)))) := by
      simp [edgeToJson, serPairsTail, hl]
    rw [hshape]
    rw [show fuel + 7 =
      fuel + 2 * ([(cs "to", e.eto), (cs "label", l)]).length + 3 from by
        simp]
    rw [parse_str_object (cs "from") e.efrom [(cs "to", e.eto), (cs "label", l)]
      fuel rest]
    rw [hres]
    rfl

theorem skipWs_serItemsTail (items : List (List Char)) (rest : List Char) :
    skipWs (serItemsTail items ++ rest) = serItemsTail items ++ rest := by
  cases items with
  | nil => exact skipWs_cbracket rest
  | cons x t =>
    rw [show serItemsTail (x :: t) ++ rest = ',' :: (x ++ (serItemsTail t ++ rest))
      from by simp [serItemsTail]]
    exact skipWs_comma _

/-- Parsing the serialized tail of an array of objects recovers the items. -/
theorem parseArrTail_items {α : Type} (itemSer : α → List Char)
    (itemJ : α → JValue)
    (hhead : ∀ a, ∃ tl, itemSer a = '{' :: tl)
    (hitem : ∀ a fuel rest,
      parseValue (fuel + 7) (itemSer a ++ rest) = some (itemJ a, rest)) :
    ∀ (xs : List α) (fuel : Nat) (rest : List Char),
    parseArrTail (fuel + 8 * xs.length + 1)
      (serItemsTail (xs.map itemSer) ++ rest) = some (xs.map itemJ, rest) := by
  have hskip : ∀ a X, skipWs (itemSer a ++ X) = itemSer a ++ X := by
    intro a X
    obtain ⟨tl, htl⟩ := hhead a
    rw [htl]
    simp only [List.cons_append]
    exact skipWs_obrace _
  intro xs
  induction xs with
  | nil =>
    intro fuel rest
    rw [show serItemsTail (([] : List α).map itemSer) ++ rest = ']' :: rest from rfl]
    rw [show fuel + 8 * ([] : List α).length + 1 = fuel + 1 from by simp]
    exact parseArrTail_close fuel rest
  | cons x t ih =>
    intro fuel rest
    rw [show serItemsTail ((x :: t).map itemSer) ++ rest =
      ',' :: (itemSer x ++ (serItemsTail (t.map itemSer) ++ rest)) from by
        simp [serItemsTail]]
    rw [show fuel + 8 * (x :: t).length + 1 = ((fuel + 8 * t.length + 1) + 7) + 1
      from by simp only [List.length_cons]; omega]
    rw [parseArrTail_comma ((fuel + 8 * t.length + 1) + 7)]
    rw [hskip x (serItemsTail (t.map itemSer) ++ rest)]
    rw [hitem x (fuel + 8 * t.length + 1) (serItemsTail (t.map itemSer) ++ rest)]
    simp only [skipWs_serItemsTail]
    rw [show (fuel + 8 * t.length + 1) + 7 = (fuel + 7) + 8 * t.length + 1 from by
      omega]
    rw [ih (fuel + 7) rest]
    rfl

/-- Parsing a serialized array of objects recovers the list. -/
theorem parse_arr {α : Type} (itemSer : α → List Char) (itemJ : α → JValue)
    (hhead : ∀ a, ∃ tl, itemSer a = '{' :: tl)
    (hitem : ∀ a fuel rest,
      parseValue (fuel + 7) (itemSer a ++ rest) = some (itemJ a, rest)) :
    ∀ (xs : List α) (fuel : Nat) (rest : List Char),
    parseValue (fuel + 8 * xs.length + 2) (serArr (xs.map itemSer) ++ rest) =
      some (JValue.jarr (xs.map itemJ), rest) := by
  intro xs fuel rest
  cases xs with
  | nil =>
    rw [show serArr (([] : List α).map itemSer) ++ rest = '[' :: (']' :: rest)
      from rfl]
    rw [show fuel + 8 * ([] : List α).length + 2 = (fuel + 1) + 1 from by simp]
    rw [parseValue_obracket (fuel + 1)]
    rw [skipWs_cbracket]
    rw [parseArrBody_close fuel rest]
    rfl
  | cons x t =>
    obtain ⟨tl, htl⟩ := hhead x
    rw [show serArr ((x :: t).map itemSer) ++ rest =
      '[' :: (itemSer x ++ (serItemsTail (t.map itemSer) ++ rest)) from by
        simp [serArr]]
    rw [show fuel + 8 * (x :: t).length + 2 = (((fuel + 8 * t.length + 1) + 7) + 1) + 1
      from by simp only [List.length_cons]; omega]
    rw [parseValue_obracket (((fuel + 8 * t.length + 1) + 7) + 1)]
    rw [show skipWs (itemSer x ++ (serItemsTail (t.map itemSer) ++ rest)) =
      itemSer x ++ (serItemsTail (t.map itemSer) ++ rest) from by
        rw [htl]; simp only [List.cons_append]; exact skipWs_obrace _]
    rw [show itemSer x ++ (serItemsTail (t.map itemSer) ++ rest) =
      '{' :: (tl ++ (serItemsTail (t.map itemSer) ++ rest)) from by
        rw [htl]; simp only [List.cons_append]]
    rw [parseArrBody_obrace ((fuel + 8 * t.length + 1) + 7)]
    rw [show ('{' : Char) :: (tl ++ (serItemsTail (t.map itemSer) ++ rest)) =
      itemSer x ++ (serItemsTail (t.map itemSer) ++ rest) from by
        rw [htl]; simp only [List.cons_append]]
    rw [hitem x (fuel + 8 * t.length + 1) (serItemsTail (t.map itemSer) ++ rest)]
    simp only [skipWs_serItemsTail]
    rw [show (fuel + 8 * t.length + 1) + 7 = (fuel + 7) + 8 * t.length + 1 from by
      omega]
    rw [parseArrTail_items itemSer itemJ hhead hitem t (fuel + 7) rest]
    rfl

theorem skipWs_serArr (items : List (List Char)) (rest : List Char) :
    skipWs (serArr items ++ rest) = serArr items ++ rest := by
  cases items with
  | nil => exact skipWs_obracket _
  | cons x t =>
    rw [show serArr (x :: t) ++ rest = '[' :: (x ++ (serItemsTail t ++ rest))
      from by simp [serArr]]
    exact skipWs_obracket _

theorem nodeToJson_head (n : FlowNode) : ∃ tl, nodeToJson n = '{' :: tl :=
  ⟨_, rfl⟩

theorem edgeToJson_head (e : FlowEdge) : ∃ tl, edgeToJson e = '{' :: tl :=
  ⟨_, rfl⟩

/-- Parsing the strict JSON serialization of a whole graph recovers its
`JValue` form exactly. -/
theorem parse_graph (g : FlowGraph) (fuel : Nat) (rest : List Char) :
    parseValue (fuel + 8 * g.nodes.length + 8 * g.edges.length + 7)
      (stringifyGraph g ++ rest) = some (graphToJValue g, rest) := by
  rw [show stringifyGraph g ++ rest =
    '{' :: (strLit (cs "nodes") ++ (':' :: (serArr (g.nodes.map nodeToJson) ++
      (',' :: (strLit (cs "edges") ++ (':' :: (serArr (g.edges.map edgeToJson) ++
        ('}' :: rest)))))))) from by
    simp [stringifyGraph]]
  rw [show fuel + 8 * g.nodes.length + 8 * g.edges.length + 7 =
    (fuel + 8 * g.nodes.length + 8 * g.edges.length + 6) + 1 from rfl]
  rw [parseValue_obrace]
  rw [skipWs_strLit]
  rw [show fuel + 8 * g.nodes.length + 8 * g.edges.length + 6 =
    (fuel + 8 * g.nodes.length + 8 * g.edges.length + 5) + 1 from rfl]
  rw [strLit_append (cs "nodes")]
  rw [parseObjBody_key]
  simp only [parseStringBody_esc, skipWs_colon, skipWs_serArr]
  rw [show fuel + 8 * g.nodes.length + 8 * g.edges.length + 5 =
    (fuel + 8 * g.edges.length + 3) + 8 * g.nodes.length + 2 from by omega]
  rw [parse_arr nodeToJson nodeJ nodeToJson_head parse_node g.nodes
    (fuel + 8 * g.edges.length + 3)]
  simp only [skipWs_comma]
  rw [show (fuel + 8 * g.edges.length + 3) + 8 * g.nodes.length + 2 =
    ((fuel + 8 * g.nodes.length + 8 * g.edges.length + 4)) + 1 from by omega]
  rw [parseObjTail_comma]
  rw [strLit_append (cs "edges"), skipWs_quote]
  simp only [parseStringBody_esc, skipWs_colon, skipWs_serArr]
  rw [show fuel + 8 * g.nodes.length + 8 * g.edges.length + 4 =
    (fuel + 8 * g.nodes.length + 2) + 8 * g.edges.length + 2 from by omega]
  rw [parse_arr edgeToJson edgeJ edgeToJson_head parse_edge g.edges
    (fuel + 8 * g.nodes.length + 2)]
  simp only [skipWs_cbrace]
  rw [show (fuel + 8 * g.nodes.length + 2) + 8 * g.edges.length + 2 =
    ((fuel + 8 * g.nodes.length + 2) + 8 * g.edges.length + 1) + 1 from rfl]
  rw [parseObjTail_close]
  rfl

theorem parse_graph_nil (g : FlowGraph) (fuel : Nat) :
    parseValue (fuel + 8 * g.nodes.length + 8 * g.edges.length + 7)
      (stringifyGraph g) = some (graphToJValue g, []) := by
  have h := parse_graph g fuel []
  rwa [List.append_nil] at h

theorem serItemsTail_len (items : List (List Char)) :
    items.length ≤ (serItemsTail items).length := by
  induction items with
  | nil => simp [serItemsTail]
  | cons x t ih =>
    simp only [serItemsTail, List.length_cons, List.length_append]
    omega

theorem serArr_len (items : List (List Char)) :
    items.length ≤ (serArr items).length := by
  cases items with
  | nil => simp [serArr]
  | cons x t =>
    have h := serItemsTail_len t
    simp only [serArr, List.length_cons, List.length_append]
    omega

theorem stringify_len (g : FlowGraph) :
    g.nodes.length + g.edges.length ≤ (stringifyGraph g).length := by
  have h1 := serArr_len (g.nodes.map nodeToJson)
  have h2 := serArr_len (g.edges.map edgeToJson)
  rw [List.length_map] at h1 h2
  simp only [stringifyGraph, List.length_cons, List.length_append]
  omega

theorem jsonParse_stringify (g : FlowGraph) :
    jsonParse (stringifyGraph g) = some (graphToJValue g) := by
  have hlen := stringify_len g
  unfold jsonParse
  rw [show skipWs (stringifyGraph g) = stringifyGraph g from rfl]
  rw [show 10 * (stringifyGraph g).length + 10 =
    (10 * (stringifyGraph g).length + 10 -
      (8 * g.nodes.length + 8 * g.edges.length + 7)) +
    8 * g.nodes.length + 8 * g.edges.length + 7 from by omega]
  rw [parse_graph_nil g]
  rfl

theorem sliceCandidate_wrapped (mid : List Char) :
    sliceCandidate ('{' :: (mid ++ ['}'])) = '{' :: (mid ++ ['}']) := by
  unfold sliceCandidate
  have hf : pyFind '{' ('{' :: (mid ++ ['}'])) = some 0 := by
    unfold pyFind
    rw [List.findIdx?_cons]
    simp
  have hr : pyRfind '}' ('{' :: (mid ++ ['}'])) = some (mid.length + 1) := by
    unfold pyRfind
    rw [show ('{' :: (mid ++ ['}'])).reverse = '}' :: (mid.reverse ++ ['{']) from by
      simp]
    rw [List.findIdx?_cons]
    simp
  rw [hf, hr]
  dsimp only
  rw [if_pos (by omega : 0 < mid.length + 1)]
  rw [List.drop_zero]
  rw [show mid.length + 1 + 1 - 0 = ('{' :: (mid ++ ['}'])).length from by simp]
  exact List.take_length _

theorem stringify_wrapped (g : FlowGraph) :
    stringifyGraph g = '{' :: ((strLit (cs "nodes") ++
      (':' :: (serArr (g.nodes.map nodeToJson) ++ (',' :: (strLit (cs "edges") ++
        (':' :: serArr (g.edges.map edgeToJson))))))) ++ ['}']) := by
  simp [stringifyGraph]

theorem sliceCandidate_stringify (g : FlowGraph) :
    sliceCandidate (stringifyGraph g) = stringifyGraph g := by
  rw [stringify_wrapped g]
  exact sliceCandidate_wrapped _

/-- C7: extraction is a round-trip identity on clean input — for every
FlowGraph g, the strict JSON serialization of g parses back to exactly
the JValue encoding of g, and extraction on that serialization succeeds
returning it (the brace slice is the whole text, parsing succeeds, and
both required keys are present). -/
theorem C7_roundtrip (g : FlowGraph) :
    jsonParse (stringifyGraph g) = some (graphToJValue g) ∧
    extractGraph (stringifyGraph g) = ExtractResult.ok (graphToJValue g) := by
  have hparse := jsonParse_stringify g
  refine ⟨hparse, ?_⟩
  unfold extractGraph
  rw [sliceCandidate_stringify g, hparse]
  dsimp only
  rw [show pyIn (cs "nodes") (graphToJValue g) = some true from rfl]
  rw [show pyIn (cs "edges") (graphToJValue g) = some true from rfl]
